import Mathlib

/-!
Shallow embedding of `src/apps/calculator/route.py`: the POST handler `run`.

The handler does, in order:
  1. `image_data = base64.b64decode(data.image.split(",")[1])`
  2. `image_bytes = BytesIO(image_data)` ; `image = Image.open(image_bytes)`
  3. `responses = analyze_image(image, dict_of_vars=data.dict_of_vars)`
  4. builds `data_list` by appending each response in a for-loop
  5. prints `responses[-1]` when `responses` is truthy, else prints `None`
  6. returns `{"message": "Image processed", "data": data_list, "status": "success"}`

Python strings are modelled as `String` (char lists via `.data`), bytes as
`List Nat`, exceptions as `Except PyErr`, and the console output as the list
of diagnostic lines the handler emits (each line is the `Option α` printed:
`some r` for a response, `none` for Python's `None`).  `Image.open` and
`analyze_image` are external collaborators, so `run` is parametric in them;
either may raise, which is modelled by their `Except` results.
-/

namespace CalculatorRoute

/-- Python exceptions relevant to the handler. -/
inductive PyErr : Type where
  | indexError : PyErr
  | nonAsciiError : PyErr
  | paddingError : PyErr
  | base64Error : PyErr
  | custom : String → PyErr
deriving DecidableEq, Repr

/-- Equality of `Except` values is decidable when it is on both sides. -/
instance exceptDecEq {ε α : Type} [DecidableEq ε] [DecidableEq α] :
    DecidableEq (Except ε α) := fun x y =>
  match x, y with
  | Except.ok a, Except.ok b =>
    if h : a = b then isTrue (by rw [h])
    else isFalse (fun hc => h (Except.ok.inj hc))
  | Except.error a, Except.error b =>
    if h : a = b then isTrue (by rw [h])
    else isFalse (fun hc => h (Except.error.inj hc))
  | Except.ok _, Except.error _ => isFalse (fun hc => Except.noConfusion hc)
  | Except.error _, Except.ok _ => isFalse (fun hc => Except.noConfusion hc)

/-- Python's `s.split(",")` on the character list of `s`: split on every
comma, keeping empty segments, and yielding `[s]` when no comma occurs. -/
def pySplit : List Char → List (List Char)
  | [] => [[]]
  | c :: cs =>
    if c = ',' then [] :: pySplit cs
    else
      match pySplit cs with
      | [] => [[c]]
      | s :: ss => (c :: s) :: ss

/-- Value of a character in the standard base64 alphabet, if any. -/
def sextet (c : Char) : Option Nat :=
  if 'A' ≤ c ∧ c ≤ 'Z' then some (c.toNat - 65)
  else if 'a' ≤ c ∧ c ≤ 'z' then some (c.toNat - 97 + 26)
  else if '0' ≤ c ∧ c ≤ '9' then some (c.toNat - 48 + 52)
  else if c = '+' then some 62
  else if c = '/' then some 63
  else none

/-- Decode a run of base64 alphabet characters into bytes, 4 characters to
3 bytes, with the usual 2- and 3-character tail groups. -/
def decodeChunks : List Char → List Nat
  | a :: b :: c :: d :: rest =>
    if rest = [] ∧ (c = '=' ∨ d = '=') then
      if c = '=' then [(sextet a).getD 0 * 4 + (sextet b).getD 0 / 16]
      else
        [(sextet a).getD 0 * 4 + (sextet b).getD 0 / 16,
         (sextet b).getD 0 % 16 * 16 + (sextet c).getD 0 / 4]
    else
      ((sextet a).getD 0 * 4 + (sextet b).getD 0 / 16) ::
      ((sextet b).getD 0 % 16 * 16 + (sextet c).getD 0 / 4) ::
      ((sextet c).getD 0 % 4 * 64 + (sextet d).getD 0) :: decodeChunks rest
  | [a, b] => [(sextet a).getD 0 * 4 + (sextet b).getD 0 / 16]
  | [a, b, c] =>
    [(sextet a).getD 0 * 4 + (sextet b).getD 0 / 16,
     (sextet b).getD 0 % 16 * 16 + (sextet c).getD 0 / 4]
  | _ => []

/-- Model of Python's `base64.b64decode` (default non-validating mode), on the
character list of the argument string: non-ASCII input raises, characters
outside the alphabet and `=` are discarded, the count of remaining characters
must be a multiple of 4, and the characters before the padding are decoded. -/
def b64decode (s : List Char) : Except PyErr (List Nat) :=
  if s.any (fun c => 128 ≤ c.toNat) then Except.error PyErr.nonAsciiError
  else
    let valid := s.filter (fun c => (sextet c).isSome || c = '=')
    if valid.length % 4 ≠ 0 then Except.error PyErr.paddingError
    else
      let body := valid.takeWhile (fun c => c ≠ '=')
      if body.length % 4 = 1 then Except.error PyErr.base64Error
      else Except.ok (decodeChunks body)

/-- Line 12 of the handler: `base64.b64decode(data.image.split(",")[1])`.
Indexing `[1]` on the split raises `IndexError` when the string holds no
comma. -/
def decodeStep (image : String) : Except PyErr (List Nat) :=
  match (pySplit image.data).get? 1 with
  | none => Except.error PyErr.indexError
  | some seg => b64decode seg

/-- The request payload: schema `ImageData` with an `image` data-URL string
and the caller-supplied `dict_of_vars` mapping, kept opaque as a type
parameter `V`. -/
structure ImageData (V : Type) where
  image : String
  dict_of_vars : V

/-- The JSON envelope the handler returns. -/
structure RouteResponse (α : Type) where
  message : String
  data : List α
  status : String
deriving DecidableEq, Repr

/-- The for-loop of lines 16-18: start from `[]` and append each response. -/
def buildDataList {α : Type} (responses : List α) : List α :=
  responses.foldl (fun acc r => acc ++ [r]) []

/-- Python's `l[-1]`: the element at index `len(l) - 1`, raising `IndexError`
on the empty list. -/
def pyNegOne {α : Type} (l : List α) : Except PyErr α :=
  match l.get? (l.length - 1) with
  | none => Except.error PyErr.indexError
  | some x => Except.ok x

/-- Lines 19-22: `if responses: print(..., responses[-1]) else: print(..., None)`.
The produced diagnostic line is `some` of the last response, or `none` for
Python's `None`. -/
def printStep {α : Type} (responses : List α) : Except PyErr (Option α) :=
  if responses.isEmpty then Except.ok none
  else
    match pyNegOne responses with
    | Except.error e => Except.error e
    | Except.ok x => Except.ok (some x)

/-- The handler `run` of `src/apps/calculator/route.py`, parametric in the
external collaborators `Image.open` (via `BytesIO`) and `analyze_image`.
On success it returns the list of diagnostic lines printed together with the
response envelope; any failing step short-circuits with its exception. -/
def run {Img V α : Type}
    (imageOpen : List Nat → Except PyErr Img)
    (analyze_image : Img → V → Except PyErr (List α))
    (data : ImageData V) : Except PyErr (List (Option α) × RouteResponse α) :=
  match decodeStep data.image with
  | Except.error e => Except.error e
  | Except.ok image_data =>
    match imageOpen image_data with
    | Except.error e => Except.error e
    | Except.ok image =>
      match analyze_image image data.dict_of_vars with
      | Except.error e => Except.error e
      | Except.ok responses =>
        let data_list := buildDataList responses
        match printStep responses with
        | Except.error e => Except.error e
        | Except.ok line =>
          Except.ok ([line], RouteResponse.mk ("Image processed") data_list ("success"))

/-- Reading of the spec sentence for claim C4, stated in the spec's words:
the remainder of the string after the first comma, in full. -/
def remainderAfterFirstComma (l : List Char) : List Char :=
  (l.dropWhile (fun c => c ≠ ',')).drop 1

/-! ### Concrete fixtures used by the witness theorems -/

/-- A trivial image loader: the image object is its own byte list. -/
def io0 : List Nat → Except PyErr (List Nat) := fun bs => Except.ok bs

/-- A collaborator that returns the image bytes as its result list. -/
def ai0 : List Nat → Nat → Except PyErr (List Nat) := fun img _ => Except.ok img

/-- A collaborator that returns no results. -/
def aiEmpty : List Nat → Nat → Except PyErr (List Nat) := fun _ _ => Except.ok []

/-- A well-formed request: the base64 payload decodes to the bytes of ABC. -/
def d0 : ImageData Nat := ⟨("data:image/png;base64,QUJD"), 7⟩

/-- A malformed request whose image string holds no comma. -/
def dBad : ImageData Nat := ⟨("nocomma"), 7⟩

/-- A request whose base64 payload has invalid padding (3 characters). -/
def dPad : ImageData Nat := ⟨("x,QUJ"), 7⟩

/-! ### Helper lemmas -/

theorem pySplit_ne_nil (l : List Char) : pySplit l ≠ [] := by
  induction l with
  | nil => simp [pySplit]
  | cons c cs ih =>
    by_cases h : c = ','
    · simp [pySplit, h]
    · simp only [pySplit, if_neg h]
      cases hs : pySplit cs with
      | nil => simp
      | cons s ss => simp

theorem pySplit_no_comma (l : List Char) (h : ',' ∉ l) : pySplit l = [l] := by
  induction l with
  | nil => rfl
  | cons c cs ih =>
    have hc : c ≠ ',' := by rintro rfl; exact h (List.mem_cons_self _ _)
    have hcs : ',' ∉ cs := fun hm => h (List.mem_cons_of_mem c hm)
    simp [pySplit, hc, ih hcs]

theorem pySplit_head (l : List Char) :
    ∃ ss, pySplit l = l.takeWhile (fun c => c ≠ ',') :: ss := by
  induction l with
  | nil => exact ⟨[], rfl⟩
  | cons c cs ih =>
    by_cases h : c = ','
    · subst h
      exact ⟨pySplit cs, by simp [pySplit, List.takeWhile_cons]⟩
    · obtain ⟨ss, hss⟩ := ih
      exact ⟨ss, by simp [pySplit, h, hss, List.takeWhile_cons]⟩

theorem pySplit_append (p rest : List Char) (h : ',' ∉ p) :
    pySplit (p ++ ',' :: rest) = p :: pySplit rest := by
  induction p with
  | nil => simp [pySplit]
  | cons c cs ih =>
    have hc : c ≠ ',' := by rintro rfl; exact h (List.mem_cons_self _ _)
    have hcs : ',' ∉ cs := fun hm => h (List.mem_cons_of_mem c hm)
    simp [pySplit, hc, ih hcs]

theorem decodeStep_missing_comma (image : String) (h : ',' ∉ image.data) :
    decodeStep image = Except.error PyErr.indexError := by
  simp [decodeStep, pySplit_no_comma image.data h]

theorem decodeStep_append (p rest : List Char) (h : ',' ∉ p) :
    decodeStep (String.mk (p ++ ',' :: rest))
      = b64decode (rest.takeWhile (fun c => c ≠ ',')) := by
  obtain ⟨ss, hss⟩ := pySplit_head rest
  simp [decodeStep, pySplit_append p rest h, hss]

theorem foldl_append_eq {α : Type} (rs : List α) :
    ∀ acc : List α, rs.foldl (fun a r => a ++ [r]) acc = acc ++ rs := by
  induction rs with
  | nil => intro acc; simp
  | cons r rs ih => intro acc; simp [List.foldl_cons, ih]

theorem buildDataList_eq {α : Type} (rs : List α) : buildDataList rs = rs := by
  simpa [buildDataList] using foldl_append_eq rs []

theorem printStep_eq {α : Type} (rs : List α) :
    printStep rs = Except.ok rs.getLast? := by
  cases rs with
  | nil => rfl
  | cons r l =>
    simp only [printStep, List.isEmpty_cons, Bool.false_eq_true, if_false, pyNegOne]
    rw [List.get?_eq_getElem? (r :: l), ← List.getLast?_eq_getElem? (r :: l)]
    cases h : (r :: l).getLast? with
    | none => exact absurd h (by simp)
    | some x => rfl

theorem run_steps {Img V α : Type}
    (imageOpen : List Nat → Except PyErr Img)
    (analyze_image : Img → V → Except PyErr (List α))
    (d : ImageData V) (bs : List Nat) (img : Img) (rs : List α)
    (hdec : decodeStep d.image = Except.ok bs)
    (ho : imageOpen bs = Except.ok img)
    (ha : analyze_image img d.dict_of_vars = Except.ok rs) :
    run imageOpen analyze_image d
      = Except.ok ([rs.getLast?],
          RouteResponse.mk ("Image processed") rs ("success")) := by
  simp [run, hdec, ho, ha, buildDataList_eq, printStep_eq]

theorem run_ok_form {Img V α : Type}
    (imageOpen : List Nat → Except PyErr Img)
    (analyze_image : Img → V → Except PyErr (List α))
    (d : ImageData V) (res : List (Option α) × RouteResponse α)
    (h : run imageOpen analyze_image d = Except.ok res) :
    ∃ rs : List α,
      res = ([rs.getLast?],
        RouteResponse.mk ("Image processed") rs ("success")) := by
  cases hdec : decodeStep d.image with
  | error e => simp [run, hdec] at h
  | ok bs =>
    cases ho : imageOpen bs with
    | error e => simp [run, hdec, ho] at h
    | ok img =>
      cases ha : analyze_image img d.dict_of_vars with
      | error e => simp [run, hdec, ho, ha] at h
      | ok rs =>
        refine ⟨rs, ?_⟩
        simp only [run, hdec, ho, ha, printStep_eq, buildDataList_eq,
          Except.ok.injEq] at h
        exact h.symm

/-! ### Claim theorems -/

/-- C1: on every request where the base64 decode, the image construction and
the `analyze_image` call all succeed, the handler returns exactly the JSON
envelope whose `message` is the literal string Image processed, whose `data`
is the list of results, and whose `status` is the literal string success. -/
theorem run_success_envelope {Img V α : Type}
    (imageOpen : List Nat → Except PyErr Img)
    (analyze_image : Img → V → Except PyErr (List α))
    (d : ImageData V) (bs : List Nat) (img : Img) (rs : List α)
    (hdec : decodeStep d.image = Except.ok bs)
    (ho : imageOpen bs = Except.ok img)
    (ha : analyze_image img d.dict_of_vars = Except.ok rs) :
    ∃ lines, run imageOpen analyze_image d
      = Except.ok (lines, RouteResponse.mk ("Image processed") rs ("success")) :=
  ⟨[rs.getLast?], run_steps imageOpen analyze_image d bs img rs hdec ho ha⟩

theorem run_success_envelope_witness :
    ∃ lines, run io0 ai0 d0
      = Except.ok (lines,
          RouteResponse.mk ("Image processed") [65, 66, 67] ("success")) :=
  run_success_envelope io0 ai0 d0 [65, 66, 67] [65, 66, 67] [65, 66, 67]
    (by decide) rfl rfl

/-- C2: the `data` list of the response contains exactly the items emitted by
`analyze_image`, in the collaborator's emission order, and with the same
length as the collaborator's output. -/
theorem run_data_list_preserves_order {Img V α : Type}
    (imageOpen : List Nat → Except PyErr Img)
    (analyze_image : Img → V → Except PyErr (List α))
    (d : ImageData V) (bs : List Nat) (img : Img) (rs : List α)
    (hdec : decodeStep d.image = Except.ok bs)
    (ho : imageOpen bs = Except.ok img)
    (ha : analyze_image img d.dict_of_vars = Except.ok rs) :
    ∃ lines r, run imageOpen analyze_image d = Except.ok (lines, r)
      ∧ r.data = rs ∧ r.data.length = rs.length :=
  ⟨[rs.getLast?], RouteResponse.mk ("Image processed") rs ("success"),
    run_steps imageOpen analyze_image d bs img rs hdec ho ha, rfl, rfl⟩

theorem run_data_list_preserves_order_witness :
    ∃ lines r, run io0 ai0 d0 = Except.ok (lines, r)
      ∧ r.data = [65, 66, 67] ∧ r.data.length = ([65, 66, 67] : List Nat).length :=
  run_data_list_preserves_order io0 ai0 d0 [65, 66, 67] [65, 66, 67] [65, 66, 67]
    (by decide) rfl rfl

/-- C3: when the image string holds no comma, the handler fails with
`IndexError` at the split and indexing step, whatever the collaborators are;
in particular the result never depends on `analyze_image`, which is therefore
never reached. -/
theorem run_missing_comma_fails_before_analyze {Img V α : Type}
    (imageOpen : List Nat → Except PyErr Img)
    (analyze_image : Img → V → Except PyErr (List α))
    (d : ImageData V) (h : ',' ∉ d.image.data) :
    run imageOpen analyze_image d = Except.error PyErr.indexError := by
  simp [run, decodeStep_missing_comma d.image h]

theorem run_missing_comma_fails_before_analyze_witness :
    run io0 ai0 dBad = Except.error PyErr.indexError :=
  run_missing_comma_fails_before_analyze io0 ai0 dBad (by decide)

/-- C4 counterexample: on the image string p,QUJD,RUZH the code decodes the
segment between the first and second comma (bytes of ABC), not the base64
decoding of everything after the first comma (bytes of ABCEFG), so the claim
as stated is false. -/
theorem decodeStep_not_full_remainder :
    decodeStep ("p,QUJD,RUZH") = Except.ok [65, 66, 67]
    ∧ b64decode (remainderAfterFirstComma ("p,QUJD,RUZH").data)
        = Except.ok [65, 66, 67, 69, 70, 71]
    ∧ decodeStep ("p,QUJD,RUZH")
        ≠ b64decode (remainderAfterFirstComma ("p,QUJD,RUZH").data) :=
  ⟨by decide, by decide, by decide⟩

/-- C4 amended: for every image string of the form p ++ comma ++ rest with no
comma in p, the handler base64-decodes the portion of rest up to the next
comma, i.e. the second comma-separated segment; this is the entire remainder
after the first comma exactly when rest holds no further comma. -/
theorem decodeStep_second_segment (p rest : List Char) (h : ',' ∉ p) :
    decodeStep (String.mk (p ++ ',' :: rest))
      = b64decode (rest.takeWhile (fun c => c ≠ ',')) :=
  decodeStep_append p rest h

theorem decodeStep_second_segment_witness :
    decodeStep (String.mk ([Char.ofNat 112] ++ ',' :: ("QUJD,RUZH").data))
      = b64decode (("QUJD,RUZH").data.takeWhile (fun c => c ≠ ',')) :=
  decodeStep_second_segment [Char.ofNat 112] (("QUJD,RUZH").data) (by decide)

/-- C5: when `analyze_image` returns the empty sequence, the handler still
succeeds, `data` is the empty list, the diagnostic printed is None, and the
envelope is unchanged with status success. -/
theorem run_empty_responses_success {Img V α : Type}
    (imageOpen : List Nat → Except PyErr Img)
    (analyze_image : Img → V → Except PyErr (List α))
    (d : ImageData V) (bs : List Nat) (img : Img)
    (hdec : decodeStep d.image = Except.ok bs)
    (ho : imageOpen bs = Except.ok img)
    (ha : analyze_image img d.dict_of_vars = Except.ok ([] : List α)) :
    run imageOpen analyze_image d
      = Except.ok ([none], RouteResponse.mk ("Image processed") [] ("success")) :=
  run_steps imageOpen analyze_image d bs img [] hdec ho ha

theorem run_empty_responses_success_witness :
    run io0 aiEmpty d0
      = Except.ok ([none], RouteResponse.mk ("Image processed") [] ("success")) :=
  run_empty_responses_success io0 aiEmpty d0 [65, 66, 67] [65, 66, 67]
    (by decide) rfl rfl

/-- C6: every failure inside the handler propagates uncaught: a failing
decode step, a failing image construction or a failing `analyze_image` call
each surface as exactly that exception, and whenever the handler does return,
the envelope is the single success one with the literal message and status. -/
theorem run_failures_propagate {Img V α : Type}
    (imageOpen : List Nat → Except PyErr Img)
    (analyze_image : Img → V → Except PyErr (List α))
    (d : ImageData V) :
    (∀ e, decodeStep d.image = Except.error e →
        run imageOpen analyze_image d = Except.error e)
    ∧ (∀ bs e, decodeStep d.image = Except.ok bs → imageOpen bs = Except.error e →
        run imageOpen analyze_image d = Except.error e)
    ∧ (∀ bs img e, decodeStep d.image = Except.ok bs → imageOpen bs = Except.ok img →
        analyze_image img d.dict_of_vars = Except.error e →
        run imageOpen analyze_image d = Except.error e)
    ∧ (∀ lines r, run imageOpen analyze_image d = Except.ok (lines, r) →
        r.message = ("Image processed") ∧ r.status = ("success")) := by
  refine ⟨fun e hdec => by simp [run, hdec],
          fun bs e hdec ho => by simp [run, hdec, ho],
          fun bs img e hdec ho ha => by simp [run, hdec, ho, ha],
          fun lines r h => ?_⟩
  obtain ⟨rs, hres⟩ := run_ok_form imageOpen analyze_image d (lines, r) h
  injection hres with hl hr
  rw [hr]
  exact ⟨rfl, rfl⟩

theorem run_failures_propagate_witness :
    run io0 ai0 dPad = Except.error PyErr.paddingError :=
  (run_failures_propagate io0 ai0 dPad).1 PyErr.paddingError (by decide)

/-- C7: on every successful request the handler prints exactly one diagnostic
line, holding the last element of the result sequence when it is non-empty
and None when it is empty. -/
theorem run_prints_last_response {Img V α : Type}
    (imageOpen : List Nat → Except PyErr Img)
    (analyze_image : Img → V → Except PyErr (List α))
    (d : ImageData V) (lines : List (Option α)) (r : RouteResponse α)
    (h : run imageOpen analyze_image d = Except.ok (lines, r)) :
    lines = [r.data.getLast?] := by
  obtain ⟨rs, hres⟩ := run_ok_form imageOpen analyze_image d (lines, r) h
  injection hres with hl hr
  rw [hl, hr]

theorem run_prints_last_response_witness :
    ([some 67] : List (Option Nat))
      = [(RouteResponse.mk ("Image processed") [65, 66, 67] ("success")).data.getLast?] :=
  run_prints_last_response io0 ai0 d0 [some 67]
    (RouteResponse.mk ("Image processed") [65, 66, 67] ("success")) (by decide)

/-- C8: the handler passes the caller-supplied `dict_of_vars` mapping to
`analyze_image` unchanged: instrumenting the collaborator to record its
arguments shows that it receives exactly the image object and exactly the
mapping of the request payload. -/
theorem run_passes_dict_of_vars_opaquely {Img V : Type}
    (imageOpen : List Nat → Except PyErr Img)
    (d : ImageData V) (bs : List Nat) (img : Img)
    (hdec : decodeStep d.image = Except.ok bs)
    (ho : imageOpen bs = Except.ok img) :
    run imageOpen (fun i v => Except.ok [(i, v)]) d
      = Except.ok ([some (img, d.dict_of_vars)],
          RouteResponse.mk ("Image processed") [(img, d.dict_of_vars)] ("success")) :=
  run_steps imageOpen (fun i v => Except.ok [(i, v)]) d bs img
    [(img, d.dict_of_vars)] hdec ho rfl

theorem run_passes_dict_of_vars_opaquely_witness :
    run io0 (fun i v => Except.ok [(i, v)]) d0
      = Except.ok ([some (([65, 66, 67] : List Nat), 7)],
          RouteResponse.mk ("Image processed")
            [(([65, 66, 67] : List Nat), 7)] ("success")) :=
  run_passes_dict_of_vars_opaquely io0 d0 [65, 66, 67] [65, 66, 67]
    (by decide) rfl

/-- C9: the handler never inspects what stands before the first comma: two
image strings sharing everything after the first comma produce identical
handler behaviour, whatever the two heads are. -/
theorem run_ignores_data_url_head {Img V α : Type}
    (imageOpen : List Nat → Except PyErr Img)
    (analyze_image : Img → V → Except PyErr (List α))
    (p1 p2 rest : List Char) (v : V)
    (h1 : ',' ∉ p1) (h2 : ',' ∉ p2) :
    run imageOpen analyze_image (ImageData.mk (String.mk (p1 ++ ',' :: rest)) v)
      = run imageOpen analyze_image (ImageData.mk (String.mk (p2 ++ ',' :: rest)) v) := by
  simp [run, decodeStep_append p1 rest h1, decodeStep_append p2 rest h2]

theorem run_ignores_data_url_head_witness :
    run io0 ai0 (ImageData.mk (String.mk (("data:image/png;base64").data ++ ',' :: ("QUJD").data)) 7)
      = run io0 ai0 (ImageData.mk (String.mk (("junk").data ++ ',' :: ("QUJD").data)) 7) :=
  run_ignores_data_url_head io0 ai0 (("data:image/png;base64").data)
    (("junk").data) (("QUJD").data) 7 (by decide) (by decide)

/-- C10: the access to the last element in the diagnostic step is guarded by
the non-emptiness check, so the print step never fails: on every result list,
including the empty one, it returns the optional last element and never an
out-of-bounds error. -/
theorem printStep_never_fails {α : Type} (responses : List α) :
    printStep responses = Except.ok responses.getLast? :=
  printStep_eq responses

end CalculatorRoute
